import Mathlib

/-!
Verification of the network-connection tracking engine specification against
the repository's source.

Part 1 embeds the platform stub tracer (`package ebpf`, windows build tag):
`CurrentKernelVersion`, the `Tracer` struct, `NewTracer`, `Stop`, and the four
query methods, all of which return `ErrNotImplemented`.

Part 2 embeds the hostname-classification logic of `pkg/util/ec2/ec2.go`
(`isDefaultHostname`, `IsWindowsDefaultHostname`) over strings as `List Char`.

Part 3 models the connection-tracking engine core (connection table, bounded
buffer, event consumer) from the specification, since that code is not part of
the visible source tree.
-/

/-- Protocol of a tracked connection (spec §3: TCP or UDP). -/
inductive Protocol where
  | tcp
  | udp
deriving DecidableEq, Repr

/-- Direction metadata of a tracked connection (spec §3). -/
inductive Direction where
  | inbound
  | outbound
deriving DecidableEq, Repr

/-- Network identity of a connection: local/remote address and port plus
protocol (spec glossary "Tuple"). Addresses are abstracted as naturals. -/
structure ConnTuple where
  localAddr : Nat
  localPort : Nat
  remoteAddr : Nat
  remotePort : Nat
  proto : Protocol
deriving DecidableEq, Repr

/-- One tracked connection (spec §3 ConnectionStats): identity tuple plus
owning pid, monotone counters, direction, last-updated timestamp and the
closed flag. -/
structure ConnectionStats where
  tuple : ConnTuple
  pid : Nat
  bytesSent : Nat
  bytesRecv : Nat
  retransmits : Nat
  direction : Direction
  lastUpdated : Nat
  closed : Bool
deriving DecidableEq, Repr

/-- Errors surfaced at the query boundary (spec §7 taxonomy): the
platform-capability failure and the stopped-engine failure. -/
inductive TracerError where
  | notImplemented
  | stopped
deriving DecidableEq, Repr

/-- `ErrNotImplemented`, the error value every stub query returns. -/
def ErrNotImplemented : TracerError := TracerError.notImplemented

/-- Opaque stand-in for the `Config` struct passed to `NewTracer`; the stub
never reads it. -/
structure Config where
  staleSeconds : Nat
  maxClosedConns : Nat
deriving DecidableEq, Repr

/-- Stand-in for `PortMapping` (spec §3): mapping consulted, never mutated. -/
structure PortMapping where
  entries : List (Nat × Nat)
deriving DecidableEq, Repr

/-- One exclusion rule of the connection blacklist (spec §3
ConnectionFilter): an address plus port pattern. -/
structure ConnectionFilter where
  addr : Nat
  port : Nat
deriving DecidableEq, Repr

/-- Result type of `GetActiveConnections` / `DebugNetworkMaps`. -/
structure Connections where
  conns : List ConnectionStats
deriving DecidableEq, Repr

/-- Model of Go's `map[string]interface{}` results: an association list. -/
abbrev StatsMap := List (List Char × Int)

/-- The stub `Tracer` struct (src/unnamed/part_000 lines 14-41): config and
port-mapping pointers, five telemetry counters, the closed-connection buffer
and the two exclusion lists. The mutex guards concurrency only and carries no
state. -/
structure Tracer where
  config : Option Config
  portMapping : Option PortMapping
  perfReceived : Int
  perfLost : Int
  skippedConns : Int
  pidCollisions : Int
  expiredTCPConns : Int
  buffer : List ConnectionStats
  sourceExcludes : List ConnectionFilter
  destExcludes : List ConnectionFilter
deriving DecidableEq, Repr

/-- The Go zero value `Tracer{}`: nil pointers, zero counters, empty slices. -/
def zeroTracer : Tracer :=
  { config := none
    portMapping := none
    perfReceived := 0
    perfLost := 0
    skippedConns := 0
    pidCollisions := 0
    expiredTCPConns := 0
    buffer := []
    sourceExcludes := []
    destExcludes := [] }

/-- `CurrentKernelVersion` (part_000 lines 10-12): `return 1, nil`. -/
def CurrentKernelVersion : Nat × Option TracerError := (1, none)

/-- `NewTracer` (part_000 lines 43-45): ignores the config and returns
`&Tracer{}, nil` — a non-nil zero-valued tracer, modelled as `some zeroTracer`,
and no error. -/
def NewTracer (_config : Option Config) : Option Tracer × Option TracerError :=
  (some zeroTracer, none)

/-- `Tracer.Stop` (part_000 line 47): empty body, the state is untouched. -/
def Tracer.Stop (t : Tracer) : Tracer := t

/-- `Tracer.GetActiveConnections` (part_000 lines 49-51):
`return nil, ErrNotImplemented` for every client ID. -/
def Tracer.GetActiveConnections (_t : Tracer) (_clientID : List Char) :
    Option Connections × Option TracerError :=
  (none, some ErrNotImplemented)

/-- `Tracer.GetStats` (part_000 lines 53-55): `return nil, ErrNotImplemented`. -/
def Tracer.GetStats (_t : Tracer) : Option StatsMap × Option TracerError :=
  (none, some ErrNotImplemented)

/-- `Tracer.DebugNetworkState` (part_000 lines 57-59):
`return nil, ErrNotImplemented` for every client ID. -/
def Tracer.DebugNetworkState (_t : Tracer) (_clientID : List Char) :
    Option StatsMap × Option TracerError :=
  (none, some ErrNotImplemented)

/-- `Tracer.DebugNetworkMaps` (part_000 lines 61-63):
`return nil, ErrNotImplemented`. -/
def Tracer.DebugNetworkMaps (_t : Tracer) :
    Option Connections × Option TracerError :=
  (none, some ErrNotImplemented)

/-- C1: on the stub platform every query method — `GetActiveConnections` for
every client ID, `GetStats`, `DebugNetworkState` for every client ID and
`DebugNetworkMaps` — fails with the same `ErrNotImplemented` error and a nil
result, so all four calls fail identically. -/
theorem stub_queries_fail_identically (t : Tracer) (clientID clientID2 : List Char) :
    t.GetActiveConnections clientID = (none, some ErrNotImplemented) ∧
    t.GetStats = (none, some ErrNotImplemented) ∧
    t.DebugNetworkState clientID2 = (none, some ErrNotImplemented) ∧
    t.DebugNetworkMaps = (none, some ErrNotImplemented) ∧
    (t.GetActiveConnections clientID).2 = (t.GetStats).2 ∧
    (t.GetStats).2 = (t.DebugNetworkState clientID2).2 ∧
    (t.DebugNetworkState clientID2).2 = (t.DebugNetworkMaps).2 :=
  ⟨rfl, rfl, rfl, rfl, rfl, rfl, rfl⟩

/-- C2 counterexample: on the stub tracer, a query made after `Stop()` does
not return the stopped-engine error — concretely, `GetStats` after `Stop` on
the zero tracer yields `ErrNotImplemented`, which differs from
`TracerError.stopped`. -/
theorem stub_query_after_stop_not_stopped_error :
    (Tracer.GetStats (Tracer.Stop zeroTracer)).2 = some TracerError.notImplemented ∧
    (Tracer.GetStats (Tracer.Stop zeroTracer)).2 ≠ some TracerError.stopped := by
  exact ⟨rfl, by decide⟩

/-- C2 (amended): on the stub platform, every query method called after
`Stop()` still fails deterministically with a nil result and the
`ErrNotImplemented` error — never partial or empty data; the stopped-engine
error is specific to the kernel-backed engine, which is not part of the stub
source. -/
theorem stub_query_after_stop_deterministic (t : Tracer) (clientID clientID2 : List Char) :
    (t.Stop).GetActiveConnections clientID = (none, some ErrNotImplemented) ∧
    (t.Stop).GetStats = (none, some ErrNotImplemented) ∧
    (t.Stop).DebugNetworkState clientID2 = (none, some ErrNotImplemented) ∧
    (t.Stop).DebugNetworkMaps = (none, some ErrNotImplemented) :=
  ⟨rfl, rfl, rfl, rfl⟩

/-- C3: `Stop` is idempotent — calling it twice leaves the tracer in exactly
the state one call leaves it in (`Stop ∘ Stop = Stop` on engine states). -/
theorem stop_idempotent (t : Tracer) : (t.Stop).Stop = t.Stop := rfl

/-- C8: on the unsupported-stub platform, `NewTracer` succeeds for every
input, including a nil config: it returns a non-nil tracer whose value is the
zero `Tracer` (zero counters, nil config and port-mapping pointers, empty
buffer and exclusion lists) and a nil error. -/
theorem newTracer_always_zero (config : Option Config) :
    NewTracer config = (some zeroTracer, none) ∧
    (NewTracer config).1 ≠ none ∧
    zeroTracer.config = none ∧
    zeroTracer.portMapping = none ∧
    zeroTracer.perfReceived = 0 ∧
    zeroTracer.perfLost = 0 ∧
    zeroTracer.skippedConns = 0 ∧
    zeroTracer.pidCollisions = 0 ∧
    zeroTracer.expiredTCPConns = 0 ∧
    zeroTracer.buffer = [] ∧
    zeroTracer.sourceExcludes = [] ∧
    zeroTracer.destExcludes = [] := by
  refine ⟨rfl, ?_, rfl, rfl, rfl, rfl, rfl, rfl, rfl, rfl, rfl, rfl⟩
  simp [NewTracer]

/-- C9: `CurrentKernelVersion` on the non-linux stub returns the value 1 and a
nil error — it never fails despite the platform being the not-implemented
variant. -/
theorem currentKernelVersion_returns_one :
    CurrentKernelVersion = (1, none) ∧ CurrentKernelVersion.2 = none :=
  ⟨rfl, rfl⟩

/-! ## Hostname classification (`pkg/util/ec2/ec2.go`) -/

/-- Go's `strings.HasPrefix s p`, on strings as character lists. -/
def hasPrefix : List Char → List Char → Bool
  | _, [] => true
  | [], _ :: _ => false
  | c :: cs, p :: ps => c == p && hasPrefix cs ps

/-- Go's `strings.ToLower`, on strings as character lists. -/
def toLowerStr (s : List Char) : List Char := s.map Char.toLower

/-- `oldDefaultPrefixes` (ec2.go line 33): `{"ip-", "domu"}`. -/
def oldDefaultPrefixes : List (List Char) :=
  [['i', 'p', '-'], ['d', 'o', 'm', 'u']]

/-- `defaultPrefixes` (ec2.go line 34): `{"ip-", "domu", "ec2amaz-"}`. -/
def defaultPrefixes : List (List Char) :=
  [['i', 'p', '-'], ['d', 'o', 'm', 'u'], ['e', 'c', '2', 'a', 'm', 'a', 'z', '-']]

/-- `isDefaultHostname` (ec2.go lines 294-310): lowercase the hostname, pick
the Windows or the old list, and OR together a has-this-beginning test over
the chosen list, exactly as the Go loop accumulates `isDefault`. -/
def isDefaultHostname (hostname : List Char) (useWindowsList : Bool) : Bool :=
  let h := toLowerStr hostname
  let plist := if useWindowsList then defaultPrefixes else oldDefaultPrefixes
  plist.foldl (fun isDefault val => isDefault || hasPrefix h val) false

/-- `IsWindowsDefaultHostname` (ec2.go lines 290-292):
`!isDefaultHostname(hostname, false) && isDefaultHostname(hostname, true)`. -/
def IsWindowsDefaultHostname (hostname : List Char) : Bool :=
  !isDefaultHostname hostname false && isDefaultHostname hostname true

/-- Two non-empty patterns with distinct first characters cannot both begin a
string. -/
theorem hasPrefix_cons_ne {c d : Char} (hne : c ≠ d) (s p q : List Char)
    (h : hasPrefix s (c :: p) = true) : hasPrefix s (d :: q) = false := by
  cases s with
  | nil => simp [hasPrefix] at h
  | cons a as =>
    simp only [hasPrefix, Bool.and_eq_true, beq_iff_eq] at h
    simp only [hasPrefix, Bool.and_eq_false_iff]
    left
    simp [h.1, hne]

/-- C10: `IsWindowsDefaultHostname h` is true exactly when the lowercase form
of `h` begins with "ec2amaz-": the Windows list is the old list `{"ip-",
"domu"}` plus "ec2amaz-", and a string beginning with "ec2amaz-" can begin
with neither "ip-" nor "domu", so the difference collapses to that single
test. -/
theorem isWindowsDefaultHostname_iff_ec2amaz (hostname : List Char) :
    IsWindowsDefaultHostname hostname
      = hasPrefix (toLowerStr hostname) ['e', 'c', '2', 'a', 'm', 'a', 'z', '-'] := by
  simp only [IsWindowsDefaultHostname, isDefaultHostname, oldDefaultPrefixes,
    defaultPrefixes, if_true, if_false, List.foldl, Bool.false_or]
  cases hec : hasPrefix (toLowerStr hostname) ['e', 'c', '2', 'a', 'm', 'a', 'z', '-'] with
  | true =>
    have hip : hasPrefix (toLowerStr hostname) ['i', 'p', '-'] = false :=
      hasPrefix_cons_ne (by decide) _ _ _ hec
    have hdo : hasPrefix (toLowerStr hostname) ['d', 'o', 'm', 'u'] = false :=
      hasPrefix_cons_ne (by decide) _ _ _ hec
    simp [hip, hdo, hec]
  | false =>
    cases hip : hasPrefix (toLowerStr hostname) ['i', 'p', '-'] <;>
      cases hdo : hasPrefix (toLowerStr hostname) ['d', 'o', 'm', 'u'] <;>
        simp [hip, hdo, hec]

/-! ## Engine core, modelled from the spec

The kernel-backed engine (connection table, event consumer, bounded buffer;
spec §§3-4) is not part of the visible source tree — only the platform stub
is. The definitions below are therefore modelled from the specification. -/

namespace Engine

/-- Modelled from the spec: the kind of a kernel event record
(§4.2: "event kind {open, stats-update, close}"). -/
inductive EventKind where
  | opened
  | statsUpdate
  | closed
deriving DecidableEq, Repr

/-- Modelled from the spec: one kernel event record (§4.2/§6: tuple, pid,
event kind, byte/retransmit deltas), with direction metadata and a
timestamp to populate the connection's `lastUpdated` field. -/
structure Event where
  kind : EventKind
  tuple : ConnTuple
  pid : Nat
  sentDelta : Nat
  recvDelta : Nat
  retransDelta : Nat
  direction : Direction
  ts : Nat
deriving DecidableEq, Repr

/-- Modelled from the spec: user-space engine state — the active connection
table, the bounded buffer of closed connections with its configured capacity,
and the telemetry counters the claims reference (events received, pid
collisions). Decode failures and filters are elided: no claim depends on
them. -/
structure State where
  cap : Nat
  table : List ConnectionStats
  buffer : List ConnectionStats
  perfReceived : Nat
  pidCollisions : Nat
deriving DecidableEq, Repr

/-- Modelled from the spec (§3 lifecycle): the connection created on the
first observed event for an identity — counters start from the event's
deltas. -/
def newConn (ev : Event) : ConnectionStats :=
  { tuple := ev.tuple
    pid := ev.pid
    bytesSent := ev.sentDelta
    bytesRecv := ev.recvDelta
    retransmits := ev.retransDelta
    direction := ev.direction
    lastUpdated := ev.ts
    closed := false }

/-- Modelled from the spec (§3 lifecycle): in-place mutation of an existing
entry by a subsequent event for the same identity — deltas accumulate. -/
def updateConn (c : ConnectionStats) (ev : Event) : ConnectionStats :=
  { c with
    bytesSent := c.bytesSent + ev.sentDelta
    bytesRecv := c.bytesRecv + ev.recvDelta
    retransmits := c.retransmits + ev.retransDelta
    lastUpdated := ev.ts }

/-- Lookup of the active entry for a network tuple. -/
def findByTuple (tbl : List ConnectionStats) (t : ConnTuple) :
    Option ConnectionStats :=
  tbl.find? (fun c => decide (c.tuple = t))

/-- Replace every entry for a tuple by a new entry (under the engine's
uniqueness invariant exactly one entry matches). -/
def replaceByTuple (tbl : List ConnectionStats) (t : ConnTuple)
    (c : ConnectionStats) : List ConnectionStats :=
  tbl.map (fun x => if x.tuple = t then c else x)

/-- Modelled from the spec (§4.1): `upsert` creates-or-updates the entry for
the event's tuple; on an identity collision (same tuple, different pid) it
increments the pid-collision counter and replaces ownership, starting the new
owner's counters from the event's deltas — counters are never merged across
owners. -/
def upsert (ev : Event) (s : State) : State :=
  match findByTuple s.table ev.tuple with
  | none => { s with table := s.table ++ [newConn ev] }
  | some c =>
    if c.pid = ev.pid then
      { s with table := replaceByTuple s.table ev.tuple (updateConn c ev) }
    else
      { s with
        table := replaceByTuple s.table ev.tuple (newConn ev)
        pidCollisions := s.pidCollisions + 1 }

/-- Lookup of the active entry for a full identity (tuple, pid). -/
def findByIdent (tbl : List ConnectionStats) (t : ConnTuple) (p : Nat) :
    Option ConnectionStats :=
  tbl.find? (fun c => decide (c.tuple = t ∧ c.pid = p))

/-- Modelled from the spec (§3 Bounded Buffer): append to the fixed-capacity
buffer; once full the oldest entry is overwritten, so only the most recent
`cap` entries are kept. -/
def bufAppend (cap : Nat) (buf : List ConnectionStats)
    (x : ConnectionStats) : List ConnectionStats :=
  if buf.length < cap then buf ++ [x]
  else (buf ++ [x]).drop (buf.length + 1 - cap)

/-- Modelled from the spec (§4.1/§4.2): a `close` event removes the entry
with the event's identity and appends it, marked closed, to the bounded
buffer; a close for an unknown identity is a no-op. -/
def removeConn (ev : Event) (s : State) : State :=
  match findByIdent s.table ev.tuple ev.pid with
  | none => s
  | some c =>
    { s with
      table := s.table.filter (fun x => decide (¬(x.tuple = ev.tuple ∧ x.pid = ev.pid)))
      buffer := bufAppend s.cap s.buffer { c with closed := true } }

/-- Modelled from the spec (§4.2): the consumer's per-record step — every
processed record increments events-received telemetry, then `open` and
`stats-update` upsert while `close` removes. The step is a total function:
per-event processing never surfaces an error. -/
def processEvent (s : State) (ev : Event) : State :=
  let s1 := { s with perfReceived := s.perfReceived + 1 }
  match ev.kind with
  | EventKind.opened => upsert ev s1
  | EventKind.statsUpdate => upsert ev s1
  | EventKind.closed => removeConn ev s1

/-- The engine's initial state: empty table and buffer, zero counters, with a
configured buffer capacity. -/
def initState (cap : Nat) : State :=
  { cap := cap, table := [], buffer := [], perfReceived := 0, pidCollisions := 0 }

/-- Replay a whole sequence of ingested events from the initial state. -/
def replay (cap : Nat) (evs : List Event) : State :=
  evs.foldl processEvent (initState cap)

/-- The table holds at most one entry per network tuple. -/
def uniqTuples (tbl : List ConnectionStats) : Prop :=
  (tbl.map (fun c => c.tuple)).Nodup

/-- The table holds at most one entry per identity (tuple, pid). -/
def uniqIdents (tbl : List ConnectionStats) : Prop :=
  (tbl.map (fun c => (c.tuple, c.pid))).Nodup

instance (tbl : List ConnectionStats) : Decidable (uniqTuples tbl) := by
  unfold uniqTuples; infer_instance

instance (tbl : List ConnectionStats) : Decidable (uniqIdents tbl) := by
  unfold uniqIdents; infer_instance

end Engine

namespace Engine

/-- Replacing the entries of one tuple by an entry carrying that same tuple
leaves the list of tuples of the table unchanged. -/
theorem map_tuple_replaceByTuple (tbl : List ConnectionStats) (t : ConnTuple)
    (c : ConnectionStats) (hc : c.tuple = t) :
    (replaceByTuple tbl t c).map (fun x => x.tuple) = tbl.map (fun x => x.tuple) := by
  induction tbl with
  | nil => rfl
  | cons a as ih =>
    simp only [replaceByTuple, List.map_cons] at ih ⊢
    by_cases h : a.tuple = t
    · simp [h, hc, ih]
    · simp [h, ih]

/-- `upsert` preserves tuple-uniqueness of the table. -/
theorem uniqTuples_upsert (ev : Event) (s : State) (h : uniqTuples s.table) :
    uniqTuples (upsert ev s).table := by
  unfold upsert
  cases hf : findByTuple s.table ev.tuple with
  | none =>
    unfold uniqTuples at h ⊢
    simp only [List.map_append, List.map_cons, List.map_nil]
    rw [List.nodup_append]
    refine ⟨h, List.nodup_singleton _, ?_⟩
    intro a ha hb
    simp only [newConn, List.mem_singleton] at hb
    subst hb
    rcases List.mem_map.mp ha with ⟨x, hx, hxt⟩
    have := List.find?_eq_none.mp hf x hx
    simp only [decide_eq_true_eq] at this
    exact this hxt
  | some c =>
    dsimp only
    by_cases hp : c.pid = ev.pid
    · rw [if_pos hp]
      unfold uniqTuples
      rw [map_tuple_replaceByTuple]
      · exact h
      · have := List.find?_some hf
        simp only [decide_eq_true_eq] at this
        simpa [updateConn] using this
    · rw [if_neg hp]
      unfold uniqTuples
      rw [map_tuple_replaceByTuple]
      · exact h
      · rfl

/-- Filtering preserves tuple-uniqueness of the table. -/
theorem uniqTuples_filter (tbl : List ConnectionStats)
    (p : ConnectionStats → Bool) (h : uniqTuples tbl) :
    uniqTuples (tbl.filter p) := by
  unfold uniqTuples at h ⊢
  exact List.Nodup.sublist ((List.filter_sublist tbl).map _) h

/-- `removeConn` preserves tuple-uniqueness of the table. -/
theorem uniqTuples_removeConn (ev : Event) (s : State) (h : uniqTuples s.table) :
    uniqTuples (removeConn ev s).table := by
  unfold removeConn
  cases hf : findByIdent s.table ev.tuple ev.pid with
  | none => exact h
  | some c => exact uniqTuples_filter _ _ h

/-- The consumer step preserves tuple-uniqueness of the table. -/
theorem uniqTuples_processEvent (s : State) (ev : Event) (h : uniqTuples s.table) :
    uniqTuples (processEvent s ev).table := by
  unfold processEvent
  cases ev.kind with
  | opened => exact uniqTuples_upsert ev _ h
  | statsUpdate => exact uniqTuples_upsert ev _ h
  | closed => exact uniqTuples_removeConn ev _ h

/-- Replaying any suffix of events from a tuple-unique table keeps the table
tuple-unique. -/
theorem uniqTuples_foldl (evs : List Event) :
    ∀ s : State, uniqTuples s.table →
      uniqTuples (evs.foldl processEvent s).table := by
  induction evs with
  | nil => intro s h; exact h
  | cons e es ih => intro s h; exact ih _ (uniqTuples_processEvent s e h)

/-- Tuple-uniqueness implies identity-uniqueness: the identities project to
the tuples. -/
theorem uniqIdents_of_uniqTuples (tbl : List ConnectionStats)
    (h : uniqTuples tbl) : uniqIdents tbl := by
  unfold uniqTuples at h
  unfold uniqIdents
  apply List.Nodup.of_map Prod.fst
  rw [List.map_map]
  exact h

/-- C4: for every sequence of ingested events, the active table never
contains two distinct entries with the same identity (tuple, pid) — and the
uniqueness predicate is an invariant preserved by every consumer step from
any table satisfying the engine's table invariant. -/
theorem table_identity_unique (cap : Nat) (evs : List Event) (ev : Event)
    (s : State) (h : uniqTuples s.table) :
    uniqIdents (replay cap evs).table ∧ uniqIdents (processEvent s ev).table :=
  ⟨uniqIdents_of_uniqTuples _
      (uniqTuples_foldl evs (initState cap) (by simp [initState, uniqTuples])),
    uniqIdents_of_uniqTuples _ (uniqTuples_processEvent s ev h)⟩

end Engine

namespace Engine

/-- One append never grows the buffer past its capacity. -/
theorem bufAppend_length_le (cap : Nat) (buf : List ConnectionStats)
    (x : ConnectionStats) (h : buf.length ≤ cap) :
    (bufAppend cap buf x).length ≤ cap := by
  unfold bufAppend
  split_ifs with hlt
  · simp only [List.length_append, List.length_cons, List.length_nil]
    omega
  · simp only [List.length_drop, List.length_append, List.length_cons,
      List.length_nil]
    omega

/-- Any sequence of appends starting within capacity stays within capacity. -/
theorem foldl_bufAppend_length_le (cap : Nat) (xs : List ConnectionStats) :
    ∀ buf : List ConnectionStats, buf.length ≤ cap →
      (xs.foldl (bufAppend cap) buf).length ≤ cap := by
  induction xs with
  | nil => intro buf h; exact h
  | cons y ys ih => intro buf h; exact ih _ (bufAppend_length_le cap buf y h)

/-- Appending to a full buffer evicts exactly the oldest entry and keeps all
newer ones. -/
theorem bufAppend_full (cap : Nat) (buf : List ConnectionStats)
    (x : ConnectionStats) (hfull : buf.length = cap) (hpos : 0 < cap) :
    bufAppend cap buf x = buf.tail ++ [x] := by
  unfold bufAppend
  rw [if_neg (by omega)]
  have h1 : buf.length + 1 - cap = 1 := by omega
  rw [h1]
  cases buf with
  | nil => simp at hfull; omega
  | cons b bs => rfl

/-- C5: for every sequence of appends the bounded buffer of closed
connections never exceeds its configured capacity, and once full each further
append evicts exactly the single oldest entry while retaining all newer
entries (FIFO overwrite). -/
theorem bounded_buffer_capacity_fifo (cap : Nat) (xs buf : List ConnectionStats)
    (x : ConnectionStats) (hfull : buf.length = cap) (hpos : 0 < cap) :
    (xs.foldl (bufAppend cap) []).length ≤ cap ∧
    bufAppend cap buf x = buf.tail ++ [x] :=
  ⟨foldl_bufAppend_length_le cap xs [] (by simp),
    bufAppend_full cap buf x hfull hpos⟩

end Engine

namespace Engine

/-- In a tuple-unique table where the lookup for `t` finds `c`, replacing the
entry for `t` by `c'` (whose tuple is `t`) leaves `c'` as the sole entry for
`t`. -/
theorem filter_replaceByTuple (tbl : List ConnectionStats) (t : ConnTuple)
    (c c' : ConnectionStats) (hu : uniqTuples tbl)
    (hf : findByTuple tbl t = some c) (hc' : c'.tuple = t) :
    (replaceByTuple tbl t c').filter (fun x => decide (x.tuple = t)) = [c'] := by
  induction tbl with
  | nil => simp [findByTuple] at hf
  | cons a as ih =>
    unfold uniqTuples at hu
    rw [List.map_cons, List.nodup_cons] at hu
    by_cases ha : a.tuple = t
    · have hnone : ∀ x ∈ as, ¬(x.tuple = t) := by
        intro x hx hxt
        exact hu.1 (ha ▸ hxt ▸ List.mem_map_of_mem (fun c => c.tuple) hx)
      have hmap : as.map (fun x => if x.tuple = t then c' else x) = as := by
        rw [List.map_congr_left (fun x hx => if_neg (hnone x hx))]
        exact List.map_id as
      have hfil : as.filter (fun x => decide (x.tuple = t)) = [] :=
        List.filter_eq_nil_iff.mpr (by
          intro x hx
          simp only [decide_eq_true_eq]
          exact hnone x hx)
      simp only [replaceByTuple, List.map_cons, if_pos ha, hmap,
        List.filter_cons, hc', decide_True, if_true, hfil]
    · have hf' : findByTuple as t = some c := by
        unfold findByTuple at hf ⊢
        rwa [List.find?_cons_of_neg _ (by simpa using ha)] at hf
      have := ih hu.2 hf'
      simp only [replaceByTuple, List.map_cons, if_neg ha, List.filter_cons,
        decide_eq_true_eq, ha, if_false] at this ⊢
      simpa [replaceByTuple, ha] using this

/-- When the lookup hits an entry owned by another pid, `upsert` replaces the
owner, starts fresh counters and counts one collision. -/
theorem upsert_collision (s : State) (ev : Event) (c : ConnectionStats)
    (hf : findByTuple s.table ev.tuple = some c) (hp : ¬c.pid = ev.pid) :
    upsert ev s =
      { s with
        table := replaceByTuple s.table ev.tuple (newConn ev)
        pidCollisions := s.pidCollisions + 1 } := by
  unfold upsert
  rw [hf]
  exact if_neg hp

/-- C6: when a second event arrives for a tuple whose active entry is owned
by a different pid (a pid collision within the tracking window), the engine
keeps the most recently observed owner as the sole entry for the tuple,
increments the pid-collision counter by exactly one, and starts the new
owner's byte/retransmit counters from the event's deltas rather than merging
the two owners' counters. -/
theorem pid_collision_policy (s : State) (ev : Event) (c : ConnectionStats)
    (hk : ev.kind = EventKind.opened ∨ ev.kind = EventKind.statsUpdate)
    (hu : uniqTuples s.table)
    (hf : findByTuple s.table ev.tuple = some c)
    (hp : ¬c.pid = ev.pid) :
    (processEvent s ev).pidCollisions = s.pidCollisions + 1 ∧
    (processEvent s ev).table.filter (fun x => decide (x.tuple = ev.tuple)) = [newConn ev] ∧
    (newConn ev).pid = ev.pid ∧
    (newConn ev).bytesSent = ev.sentDelta ∧
    (newConn ev).bytesRecv = ev.recvDelta ∧
    (newConn ev).retransmits = ev.retransDelta := by
  have h1 : processEvent s ev = upsert ev { s with perfReceived := s.perfReceived + 1 } := by
    rcases hk with hk | hk <;> simp [processEvent, hk]
  have h2 := upsert_collision { s with perfReceived := s.perfReceived + 1 } ev c hf hp
  rw [h1, h2]
  exact ⟨rfl, filter_replaceByTuple s.table ev.tuple c (newConn ev) hu hf rfl,
    rfl, rfl, rfl, rfl⟩

/-- A close whose identity has no active entry changes nothing. -/
theorem removeConn_none (ev : Event) (s : State)
    (hf : findByIdent s.table ev.tuple ev.pid = none) : removeConn ev s = s := by
  unfold removeConn
  rw [hf]

/-- C7: a close event for an identity absent from the active table is a
no-op on the table and the bounded buffer and surfaces no error (the consumer
step is a total function), while the events-received counter still increments
for the event and the other counters are untouched. -/
theorem close_unknown_identity_noop (s : State) (ev : Event)
    (hk : ev.kind = EventKind.closed)
    (hf : findByIdent s.table ev.tuple ev.pid = none) :
    (processEvent s ev).table = s.table ∧
    (processEvent s ev).buffer = s.buffer ∧
    (processEvent s ev).perfReceived = s.perfReceived + 1 ∧
    (processEvent s ev).pidCollisions = s.pidCollisions := by
  have h1 : processEvent s ev = removeConn ev { s with perfReceived := s.perfReceived + 1 } := by
    simp [processEvent, hk]
  have h2 := removeConn_none ev { s with perfReceived := s.perfReceived + 1 } hf
  rw [h1, h2]
  exact ⟨rfl, rfl, rfl, rfl⟩

end Engine

/-! ## Concrete instances for the engine theorems -/

/-- The scenario tuple A:1234 -> B:80 over TCP. -/
def sampleTuple : ConnTuple :=
  { localAddr := 10, localPort := 1234, remoteAddr := 20, remotePort := 80,
    proto := Protocol.tcp }

/-- An `open` event for the scenario tuple owned by pid 100. -/
def sampleOpen100 : Engine.Event :=
  { kind := Engine.EventKind.opened, tuple := sampleTuple, pid := 100,
    sentDelta := 0, recvDelta := 0, retransDelta := 0,
    direction := Direction.outbound, ts := 1 }

/-- A `stats-update` event for the scenario tuple claiming owner pid 200. -/
def sampleStats200 : Engine.Event :=
  { kind := Engine.EventKind.statsUpdate, tuple := sampleTuple, pid := 200,
    sentDelta := 500, recvDelta := 0, retransDelta := 0,
    direction := Direction.outbound, ts := 2 }

/-- A `close` event for the scenario tuple with the unknown owner pid 300. -/
def sampleClose300 : Engine.Event :=
  { kind := Engine.EventKind.closed, tuple := sampleTuple, pid := 300,
    sentDelta := 0, recvDelta := 0, retransDelta := 0,
    direction := Direction.outbound, ts := 3 }

/-- An engine state holding the single active entry created by
`sampleOpen100`. -/
def sampleState : Engine.State :=
  { cap := 4, table := [Engine.newConn sampleOpen100], buffer := [],
    perfReceived := 1, pidCollisions := 0 }

/-- A closed connection used to exercise the bounded buffer. -/
def sampleConnA : ConnectionStats :=
  { tuple := sampleTuple, pid := 1, bytesSent := 1, bytesRecv := 0,
    retransmits := 0, direction := Direction.outbound, lastUpdated := 1,
    closed := true }

/-- A second closed connection used to exercise the bounded buffer. -/
def sampleConnB : ConnectionStats :=
  { sampleConnA with pid := 2, lastUpdated := 2 }

/-- A third closed connection used to exercise the bounded buffer. -/
def sampleConnC : ConnectionStats :=
  { sampleConnA with pid := 3, lastUpdated := 3 }

/-- A buffer filled to a capacity of two. -/
def sampleBufFull : List ConnectionStats := [sampleConnA, sampleConnB]

/-- Witness for C4 at a concrete event sequence and state. -/
theorem table_identity_unique_witness :
    Engine.uniqTuples sampleState.table ∧
    (Engine.uniqIdents (Engine.replay 4 [sampleOpen100, sampleStats200]).table ∧
      Engine.uniqIdents (Engine.processEvent sampleState sampleStats200).table) :=
  ⟨by decide,
    Engine.table_identity_unique 4 [sampleOpen100, sampleStats200]
      sampleStats200 sampleState (by decide)⟩

/-- Witness for C5 at capacity two with three appends and one full-buffer
append. -/
theorem bounded_buffer_capacity_fifo_witness :
    (sampleBufFull.length = 2 ∧ 0 < 2) ∧
    (([sampleConnA, sampleConnB, sampleConnC].foldl (Engine.bufAppend 2) []).length ≤ 2 ∧
      Engine.bufAppend 2 sampleBufFull sampleConnC = sampleBufFull.tail ++ [sampleConnC]) :=
  ⟨⟨by decide, by decide⟩,
    Engine.bounded_buffer_capacity_fifo 2 [sampleConnA, sampleConnB, sampleConnC]
      sampleBufFull sampleConnC (by decide) (by decide)⟩

/-- Witness for C6 at the spec scenario: pid 100 opens the tuple, then pid
200 updates it. -/
theorem pid_collision_policy_witness :
    Engine.uniqTuples sampleState.table ∧
    Engine.findByTuple sampleState.table sampleStats200.tuple =
      some (Engine.newConn sampleOpen100) ∧
    ¬(Engine.newConn sampleOpen100).pid = sampleStats200.pid ∧
    (Engine.processEvent sampleState sampleStats200).pidCollisions =
      sampleState.pidCollisions + 1 ∧
    (Engine.processEvent sampleState sampleStats200).table.filter
      (fun x => decide (x.tuple = sampleStats200.tuple)) =
        [Engine.newConn sampleStats200] :=
  ⟨by decide, by decide, by decide,
    (Engine.pid_collision_policy sampleState sampleStats200
      (Engine.newConn sampleOpen100) (Or.inr rfl) (by decide) (by decide)
      (by decide)).1,
    (Engine.pid_collision_policy sampleState sampleStats200
      (Engine.newConn sampleOpen100) (Or.inr rfl) (by decide) (by decide)
      (by decide)).2.1⟩

/-- Witness for C7 at a close event whose pid never owned the tuple. -/
theorem close_unknown_identity_noop_witness :
    Engine.findByIdent sampleState.table sampleClose300.tuple sampleClose300.pid = none ∧
    ((Engine.processEvent sampleState sampleClose300).table = sampleState.table ∧
      (Engine.processEvent sampleState sampleClose300).buffer = sampleState.buffer ∧
      (Engine.processEvent sampleState sampleClose300).perfReceived =
        sampleState.perfReceived + 1 ∧
      (Engine.processEvent sampleState sampleClose300).pidCollisions =
        sampleState.pidCollisions) :=
  ⟨by decide,
    Engine.close_unknown_identity_noop sampleState sampleClose300 rfl (by decide)⟩
